import Mathlib

/-!
Shallow embedding of the Django-monitor repository (moderation layer).

The embedded code comes from `src/monitor/admin.py`; the parts of the
`monitor` package that `admin.py` imports but that are not shipped under
`src/` (`monitor/conf.py`, `monitor/__init__.py`, `monitor/util.py`,
`monitor/models.py`, `monitor/actions.py`) are modelled from the
specification, as marked on each definition, and pinned where possible by
the repository's own tests (`src/monitor/tests/apps/testapp/tests.py`).
-/

namespace Monitor

/-- Modelled from the spec: `monitor/conf.py` is not under `src/`.  The spec
(§3) defines the closed status enum PENDING / CHALLENGED / APPROVED; the
constants are short string codes (the tests' comments use "IP" for pending
and "AP" for approved, tests.py lines 143, 157, 176). -/
def PENDING_STATUS : String := "IP"

/-- Modelled from the spec: challenged-status code, see `PENDING_STATUS`. -/
def CHALLENGED_STATUS : String := "CH"

/-- Modelled from the spec: approved-status code, see `PENDING_STATUS`. -/
def APPROVED_STATUS : String := "AP"

/-- An instance of a moderated model, reduced to the one attribute the
admin code reads: the injected status value (`obj.status` in
`admin.py` line 63, `get_monitor_entry(obj)` status in line 115). -/
structure MonitoredInstance where
  status : String
deriving DecidableEq

/-- The `is_approved` predicate injected by the augmentation layer
(tests.py line 115 checks it exists; `admin.py` line 115 calls it). -/
def MonitoredInstance.is_approved (i : MonitoredInstance) : Bool :=
  i.status == APPROVED_STATUS

/-- The `is_pending` predicate injected by the augmentation layer. -/
def MonitoredInstance.is_pending (i : MonitoredInstance) : Bool :=
  i.status == PENDING_STATUS

/-- The `is_challenged` predicate injected by the augmentation layer. -/
def MonitoredInstance.is_challenged (i : MonitoredInstance) : Bool :=
  i.status == CHALLENGED_STATUS

/-- Modelled from the spec: the `.pending()` query of `monitor/util.py`
(not under `src/`); spec §4.4: "composable query-narrowing operations
equivalent to filtering on the status attribute". -/
def qs_pending (qs : List MonitoredInstance) : List MonitoredInstance :=
  qs.filter (fun r => r.status == PENDING_STATUS)

/-- Modelled from the spec: the `.challenged()` query, see `qs_pending`. -/
def qs_challenged (qs : List MonitoredInstance) : List MonitoredInstance :=
  qs.filter (fun r => r.status == CHALLENGED_STATUS)

/-- Modelled from the spec: the `.approved()` query, see `qs_pending`. -/
def qs_approved (qs : List MonitoredInstance) : List MonitoredInstance :=
  qs.filter (fun r => r.status == APPROVED_STATUS)

/-- Modelled from the spec: `monitor.util.CustomManager.get_query_set` is not
under `src/`.  The spec's §4.4 sentence "the default all-instances accessor
is silently replaced by approved only" conflicts with the repository's own
tests, which require the default manager to return pending instances
(tests.py lines 131-146: `Author.objects.count() == 2` and
`Author.objects.get(pk=1).is_pending` right after two pending creations,
and lines 158-163 likewise for `Book`/`Supplement`).  The model follows the
tests: the default query returns every row of the table; the status-narrowed
queries are the explicit `qs_pending`/`qs_challenged`/`qs_approved`. -/
def manager_get_query_set (table : List MonitoredInstance) :
    List MonitoredInstance :=
  table

/-- Modelled from the spec: one entry of the moderation-queue registry
(spec §3 ModeratedTypeConfig); `admin.py` line 114 reads its
`can_delete_approved` policy flag, the only field the admin code uses. -/
structure QueueConfig where
  can_delete_approved : Bool
deriving DecidableEq

/-- Modelled from the spec: `monitor.model_from_queue` (the registry lookup
`lookup(entity_type) -> config | none` of spec §4.1); `monitor/__init__.py`
is not under `src/`.  The registry is an association list keyed by the
model's name. -/
def model_from_queue (registry : List (String × QueueConfig))
    (model_name : String) : Option QueueConfig :=
  (registry.find? (fun p => p.1 == model_name)).map (fun p => p.2)

/-- Embeds `MonitorAdmin.is_monitored` (`admin.py` lines 57-59):
`bool(model_from_queue(self.model))`. -/
def is_monitored (registry : List (String × QueueConfig))
    (model_name : String) : Bool :=
  (model_from_queue registry model_name).isSome

/-- A Django `QueryDict` (`request.GET`) reduced to an ordered list of
key/value pairs.  A key may occur several times. -/
def QueryDict : Type := List (String × String)

/-- Embeds `QueryDict.get(key, None)`: Django's `MultiValueDict.get` returns the
LAST value stored under the key, or the default when the key is absent. -/
def qd_get (d : List (String × String)) (k : String) : Option String :=
  ((d.filter (fun p => p.1 == k)).getLast?).map (fun p => p.2)

/-- Embeds `del d[key]` on a `QueryDict`: removes every value stored under the
key, leaving all other pairs in order. -/
def qd_del (d : List (String × String)) (k : String) :
    List (String × String) :=
  d.filter (fun p => !(p.1 == k))

/-- Python truthiness of the `status` variable in
`MonitorAdmin.queryset`: `None` and the empty string are falsy, every
other string is truthy. -/
def truthy : Option String → Bool
  | none => false
  | some s => !(s == "")

/-- Embeds `MonitorAdmin.queryset` (`admin.py` lines 31-55): reads `status` from
`request.GET`; if truthy, deletes the key from a copy of `request.GET`
(which replaces `request.GET`); then narrows the base queryset with
`.pending()` / `.challenged()` / `.approved()` when the value equals the
corresponding status constant, else returns it unchanged.  Returns the
(possibly replaced) `request.GET` together with the resulting queryset. -/
def queryset (GET : List (String × String)) (qs : List MonitoredInstance) :
    List (String × String) × List MonitoredInstance :=
  let status := qd_get GET ("status")
  let GET' := if truthy status then qd_del GET ("status") else GET
  let qs' :=
    if truthy status && (status == some PENDING_STATUS) then qs_pending qs
    else if truthy status && (status == some CHALLENGED_STATUS) then
      qs_challenged qs
    else if truthy status && (status == some APPROVED_STATUS) then
      qs_approved qs
    else qs
  (GET', qs')

/-- Embeds `MonitorAdmin.get_readonly_fields` (`admin.py` lines 61-65):
`readonly_fields + protected_fields` when the model is monitored, an
object is given and its status is approved; plain `readonly_fields`
otherwise. -/
def get_readonly_fields (registry : List (String × QueueConfig))
    (model_name : String) (readonly_fields protected_fields : List String)
    (obj : Option MonitoredInstance) : List String :=
  match obj with
  | some o =>
    if is_monitored registry model_name && (o.status == APPROVED_STATUS)
    then readonly_fields ++ protected_fields
    else readonly_fields
  | none => readonly_fields

/-- The model metadata (`self.opts`) the admin code reads: app label,
object name, primary-key attribute name. -/
structure ModelOpts where
  app_label : String
  object_name : String
  pk_attname : String

/-- The two list attributes `MonitorAdmin.__init__` rewrites. -/
structure AdminLists where
  list_filter : List String
  list_display : List String
deriving DecidableEq

/-- Embeds `MonitorAdmin.__init__` (`admin.py` lines 25-29): after calling the
parent constructor it unconditionally sets
`list_filter = [opts.pk.attname] + list(list_filter)` and
`list_display = list(list_display) + ['get_status_display']`.  It never
consults the moderation-queue registry. -/
def monitorAdmin_init (opts : ModelOpts)
    (declared_list_filter declared_list_display : List String) : AdminLists :=
  { list_filter := opts.pk_attname :: declared_list_filter,
    list_display := declared_list_display ++ [("get_status_display")] }

/-- Embeds `MonitorAdmin.has_delete_permission` (`admin.py` lines 106-118):
returns `False` when the model is in the moderation queue with
`can_delete_approved = False`, an object is given and its monitor entry is
approved; otherwise it returns whatever the ordinary (parent-class)
delete-permission check returns for the same request and object. -/
def has_delete_permission (registry : List (String × QueueConfig))
    (model_name : String) (obj : Option MonitoredInstance)
    (ordinary : Option MonitoredInstance → Bool) : Bool :=
  match model_from_queue registry model_name, obj with
  | some cfg, some o =>
    if (!cfg.can_delete_approved) && o.is_approved then false
    else ordinary obj
  | _, _ => ordinary obj

/-- ASCII lower-casing of one character, as Python's `str.lower` acts on
the ASCII identifiers Django uses for app labels and object names. -/
def lowerChar (c : Char) : Char :=
  if (('A') ≤ c ∧ c ≤ ('Z')) then Char.ofNat (c.toNat + 32) else c

/-- Python's `str.lower` on ASCII strings. -/
def pyLowerStr (s : String) : String :=
  String.mk (s.data.map lowerChar)

/-- Worker for Python's `str.replace(pat, rep)` on character lists: scan
left to right; wherever the (non-empty) pattern is a prefix of the
remaining input, emit the replacement and silently skip the rest of the
matched pattern (the skip counter is the first argument); otherwise emit
one character and continue.  Non-overlapping, all occurrences. -/
def pyReplaceGo (pat rep : List Char) : Nat → List Char → List Char
  | _, [] => []
  | Nat.succ k, _ :: rest => pyReplaceGo pat rep k rest
  | 0, c :: rest =>
    if pat.isPrefixOf (c :: rest) ∧ pat ≠ [] then
      rep ++ pyReplaceGo pat rep (pat.length - 1) rest
    else
      c :: pyReplaceGo pat rep 0 rest

/-- Python's `str.replace(pat, rep)` on character lists. -/
def pyReplace (pat rep l : List Char) : List Char :=
  pyReplaceGo pat rep 0 l

/-- Python's `str.replace` on strings. -/
def pyReplaceStr (s pat rep : String) : String :=
  String.mk (pyReplace pat.data rep.data s.data)

/-- Whether `pat` occurs as a contiguous sublist of `l` (Python's
`pat in s`), for non-empty `pat`. -/
def occursIn (pat : List Char) : List Char → Bool
  | [] => pat.isPrefixOf ([] : List Char)
  | c :: rest => pat.isPrefixOf (c :: rest) || occursIn pat rest

/-- The `occursIn` check on strings. -/
def occursInStr (pat s : String) : Bool :=
  occursIn pat.data s.data

/-- The moderate-permission name built in `admin.py` lines 70-72 and
101-103: `'%s.moderate_%s' % (opts.app_label.lower(), opts.object_name.lower())`. -/
def mod_perm (app_label object_name : String) : String :=
  pyLowerStr app_label ++ (".moderate_") ++ pyLowerStr object_name

/-- The change-permission name built in `admin.py` line 73:
`mod_perm.replace('moderate', 'change')` — note it replaces EVERY
occurrence of the substring, not just the verb slot. -/
def change_perm (app_label object_name : String) : String :=
  pyReplaceStr (mod_perm app_label object_name) ("moderate") ("change")

/-- Embeds `MonitorAdmin.has_moderate_permission` (`admin.py` lines 96-104):
`request.user.has_perm(mod_perm)`. -/
def has_moderate_permission (has_perm : String → Bool)
    (app_label object_name : String) : Bool :=
  has_perm (mod_perm app_label object_name)

/-- One value of the admin actions dict: the action callable (identified
by its function name — the callables live in `monitor/actions.py`, not
under `src/`), the action name, and its description. -/
structure ActionTuple where
  func : String
  name : String
  short_description : String
deriving DecidableEq

/-- Python `dict.update({k: v})` on an ordered association list: replaces
the value in place when the key exists, appends the pair otherwise. -/
def dict_update (d : List (String × ActionTuple)) (k : String)
    (v : ActionTuple) : List (String × ActionTuple) :=
  if d.any (fun p => p.1 == k) then
    d.map (fun p => if p.1 == k then (k, v) else p)
  else
    d ++ [(k, v)]

/-- Key membership in the actions dict. -/
def hasKey (d : List (String × ActionTuple)) (k : String) : Bool :=
  d.any (fun p => p.1 == k)

/-- Embeds `MonitorAdmin.get_actions` (`admin.py` lines 67-94): starting from the
parent-class actions dict, adds `approve_selected` and
`challenge_selected` when the user holds the moderate permission, and adds
`reset_to_pending` when the user holds the change permission (the string
computed by `change_perm`).  Descriptions are the `getattr` results on the
action callables of `monitor/actions.py` (not under `src/`); their values
are irrelevant to key membership and modelled by the fallback literals
`admin.py` itself supplies. -/
def get_actions (base : List (String × ActionTuple))
    (has_perm : String → Bool) (app_label object_name : String) :
    List (String × ActionTuple) :=
  let mod_p := mod_perm app_label object_name
  let chg_p := change_perm app_label object_name
  let acts1 :=
    if has_perm mod_p then
      dict_update
        (dict_update base ("approve_selected")
          { func := ("approve_selected"), name := ("approve_selected"),
            short_description := ("approve selected") })
        ("challenge_selected")
        { func := ("challenge_selected"), name := ("challenge_selected"),
          short_description := ("challenge selected") }
    else base
  let acts2 :=
    if has_perm chg_p then
      dict_update acts1 ("reset_to_pending")
        { func := ("reset_to_pending"), name := ("reset_to_pending"),
          short_description := ("reset to pending") }
    else acts1
  acts2

/-- Modelled from the spec: an instance of a moderated type together with
its cascade-parent chain (spec §3: "an instance may have at most one
cascade parent instance … the design must support arbitrary chain depth by
recursive cascade").  The per-instance moderation code of
`monitor/models.py` is not under `src/`. -/
inductive MInst : Type where
  | leaf (st : String)
  | child (st : String) (parent : MInst)
deriving DecidableEq

/-- The status of a chained instance. -/
def MInst.status : MInst → String
  | .leaf s => s
  | .child s _ => s

/-- The cascade parent, when the type has one. -/
def MInst.parent? : MInst → Option MInst
  | .leaf _ => none
  | .child _ p => some p

/-- The whole cascade-parent chain above an instance. -/
def MInst.ancestors : MInst → List MInst
  | .leaf _ => []
  | .child _ p => p :: p.ancestors

/-- Modelled from the spec: the Transition Engine's
`transition(instance, target_status, actor)` (spec §4.3, steps 1-3): set
the instance's status, and if the type has a cascade parent, recursively
repeat for the parent with the same target status until a type with no
cascade parent is reached.  `monitor/models.py` is not under `src/`. -/
def transition : MInst → String → MInst
  | .leaf _, t => .leaf t
  | .child _ p, t => .child t (transition p t)

/-- Modelled from the spec: the injected `approve()` method delegating to
the Transition Engine (spec §4.2). -/
def MInst.approve (i : MInst) : MInst := transition i APPROVED_STATUS

/-- Modelled from the spec: the injected `challenge()` method. -/
def MInst.challenge (i : MInst) : MInst := transition i CHALLENGED_STATUS

/-- Modelled from the spec: the injected `reset_to_pending()` method. -/
def MInst.reset_to_pending (i : MInst) : MInst := transition i PENDING_STATUS

/-- Modelled from the spec: the status a newly created instance of a
registered type ends up with (spec §3 lifecycle and §4.3 auto-approval
rule): `PENDING` unless the creating actor holds the type's moderate
permission, in which case `APPROVED`.  The creation save-handler of
`monitor/__init__.py` is not under `src/`. -/
def status_on_create (actor_perms : List String)
    (app_label object_name : String) : String :=
  if actor_perms.contains (mod_perm app_label object_name) then
    APPROVED_STATUS
  else
    PENDING_STATUS

/-! ### Helper lemmas -/

theorem pyReplaceGo_skip (pat rep : List Char) :
    ∀ (l : List Char) (k : Nat),
      pyReplaceGo pat rep k l = pyReplaceGo pat rep 0 (l.drop k) := by
  intro l
  induction l with
  | nil => intro k; cases k <;> simp [pyReplaceGo]
  | cons c rest ih =>
    intro k
    cases k with
    | zero => simp
    | succ k => simp [pyReplaceGo, ih k]

theorem pyReplace_cons (pat rep : List Char) (c : Char) (rest : List Char) :
    pyReplace pat rep (c :: rest) =
      if pat.isPrefixOf (c :: rest) ∧ pat ≠ [] then
        rep ++ pyReplace pat rep ((c :: rest).drop pat.length)
      else
        c :: pyReplace pat rep rest := by
  show pyReplaceGo pat rep 0 (c :: rest) = _
  rw [pyReplaceGo]
  by_cases h : pat.isPrefixOf (c :: rest) ∧ pat ≠ []
  · rw [if_pos h, if_pos h, pyReplaceGo_skip]
    cases pat with
    | nil => exact absurd rfl h.2
    | cons p ps => simp [pyReplace]
  · rw [if_neg h, if_neg h]
    rfl

theorem isPrefixOf_cons_of_not_mem {pat : List Char} {c : Char}
    (hc : c ∉ pat) (z : List Char) :
    pat.isPrefixOf (c :: z) = true → pat = [] := by
  intro h
  cases pat with
  | nil => rfl
  | cons p ps =>
    rw [List.isPrefixOf_cons₂] at h
    have hp : p = c := by
      have := (Bool.and_eq_true _ _).mp h
      exact eq_of_beq this.1
    exact absurd (hp ▸ List.mem_cons_self p ps) hc

theorem isPrefixOf_append_self (pat z : List Char) :
    pat.isPrefixOf (pat ++ z) = true := by
  induction pat with
  | nil => simp [List.isPrefixOf]
  | cons p ps ih => simp [List.isPrefixOf_cons₂, ih]

theorem prefix_through_sep {pat x y : List Char} {c : Char}
    (hc : c ∉ pat) (h : pat.isPrefixOf (x ++ c :: y) = true) :
    pat.isPrefixOf x = true := by
  rw [List.isPrefixOf_iff_prefix] at h ⊢
  rcases le_or_lt pat.length x.length with hle | hlt
  · have htake : pat = (x ++ c :: y).take pat.length :=
      List.prefix_iff_eq_take.mp h
    rw [List.take_append_of_le_length hle] at htake
    exact htake ▸ List.take_prefix _ _
  · exfalso
    have htake : pat = (x ++ c :: y).take pat.length :=
      List.prefix_iff_eq_take.mp h
    have hmem : c ∈ pat := by
      rw [htake]
      have h1 : pat.length = x.length + (pat.length - x.length) := by omega
      rw [h1, List.take_append]
      have h2 : ∃ m, pat.length - x.length = m + 1 :=
        ⟨pat.length - x.length - 1, by omega⟩
      rcases h2 with ⟨m, hm⟩
      rw [hm]
      simp
    exact hc hmem

theorem occursIn_cons (pat : List Char) (c : Char) (rest : List Char)
    (h : occursIn pat (c :: rest) = false) :
    pat.isPrefixOf (c :: rest) = false ∧ occursIn pat rest = false := by
  rw [occursIn] at h
  exact Bool.or_eq_false_iff.mp h

theorem pyReplace_no_occur (pat rep : List Char) :
    ∀ l, occursIn pat l = false → pyReplace pat rep l = l := by
  intro l
  induction l with
  | nil => intro _; rfl
  | cons c rest ih =>
    intro h
    rcases occursIn_cons pat c rest h with ⟨h1, h2⟩
    rw [pyReplace_cons, if_neg]
    · rw [ih h2]
    · intro hcon
      rw [hcon.1] at h1
      simp at h1

theorem pyReplace_verb_slot (pat rep o : List Char) (hne : pat ≠ [])
    (hdot : ('.') ∉ pat) (hund : ('_') ∉ pat)
    (ho : occursIn pat o = false) :
    ∀ a, occursIn pat a = false →
      pyReplace pat rep (a ++ ('.') :: (pat ++ ('_') :: o)) =
        a ++ ('.') :: (rep ++ ('_') :: o) := by
  intro a
  induction a with
  | nil =>
    intro _
    rw [List.nil_append, List.nil_append, pyReplace_cons, if_neg]
    · cases pat with
      | nil => exact absurd rfl hne
      | cons p ps =>
        rw [List.cons_append, pyReplace_cons, if_pos]
        · have hdrop :
              List.drop (p :: ps).length (p :: (ps ++ ('_') :: o)) =
                ('_') :: o := by
            rw [show p :: (ps ++ ('_') :: o) = (p :: ps) ++ (('_') :: o)
              from rfl]
            exact List.drop_left _ _
          rw [hdrop, pyReplace_cons, if_neg]
          · rw [pyReplace_no_occur _ _ _ ho]
          · intro hcon
            exact absurd (isPrefixOf_cons_of_not_mem hund _ hcon.1) hne
        · constructor
          · rw [show p :: (ps ++ ('_') :: o) = (p :: ps) ++ (('_') :: o)
              from rfl]
            exact isPrefixOf_append_self _ _
          · exact hne
    · intro hcon
      exact absurd (isPrefixOf_cons_of_not_mem hdot _ hcon.1) hne
  | cons ch a' ih =>
    intro h
    rcases occursIn_cons pat ch a' h with ⟨h1, h2⟩
    rw [List.cons_append, pyReplace_cons, if_neg]
    · rw [ih h2]
      rfl
    · intro hcon
      have hx :
          pat.isPrefixOf ((ch :: a') ++ ('.') :: (pat ++ ('_') :: o)) =
            true := hcon.1
      have := prefix_through_sep hdot hx
      rw [this] at h1
      simp at h1

/-! ### Claim C8: permission-name construction -/

/-- C8 counterexample: the claim says the change permission used to gate
`reset_to_pending` is `A.change_O` even when `A` contains the substring
"moderate".  For app label "moderatedapp" and object name "Book" the code
(`admin.py` line 73, `mod_perm.replace('moderate', 'change')`) computes
"changedapp.change_book", which is not "moderatedapp.change_book". -/
theorem change_perm_replaces_all_counterexample :
    change_perm ("moderatedapp") ("Book") = ("changedapp.change_book") ∧
    ("changedapp.change_book") ≠ ("moderatedapp.change_book") := by
  constructor
  · decide
  · decide

/-- C8 (amended): the moderate permission checked is always
`A.moderate_O` (lower-cased); the change permission is obtained by
replacing every occurrence of the substring "moderate" in that string with
"change", which equals `A.change_O` whenever "moderate" occurs in neither
the lower-cased app label nor the lower-cased object name. -/
theorem perm_names_verb_slot (app_label object_name : String)
    (ha : occursInStr ("moderate") (pyLowerStr app_label) = false)
    (ho : occursInStr ("moderate") (pyLowerStr object_name) = false) :
    mod_perm app_label object_name =
      pyLowerStr app_label ++ (".moderate_") ++ pyLowerStr object_name ∧
    change_perm app_label object_name =
      pyLowerStr app_label ++ (".change_") ++ pyLowerStr object_name := by
  refine ⟨rfl, ?_⟩
  apply String.ext
  have hm : (mod_perm app_label object_name).data =
      (pyLowerStr app_label).data ++
        ('.') :: (("moderate").data ++
          ('_') :: (pyLowerStr object_name).data) := by
    show ((pyLowerStr app_label ++ (".moderate_")) ++
        pyLowerStr object_name).data = _
    rw [String.data_append, String.data_append]
    simp [show (".moderate_").data =
      ('.') :: (("moderate").data ++ [('_')]) by decide]
  show pyReplace ("moderate").data ("change").data
      (mod_perm app_label object_name).data =
      ((pyLowerStr app_label ++ (".change_")) ++
        pyLowerStr object_name).data
  rw [hm,
    pyReplace_verb_slot ("moderate").data ("change").data
      (pyLowerStr object_name).data (by decide) (by decide) (by decide) ho
      (pyLowerStr app_label).data ha]
  rw [String.data_append, String.data_append]
  simp [show (".change_").data =
    ('.') :: (("change").data ++ [('_')]) by decide]

/-- C8 witness: the amended theorem applied at app label "testapp" and
object name "Author". -/
theorem perm_names_verb_slot_witness :
    occursInStr ("moderate") (pyLowerStr ("testapp")) = false ∧
    occursInStr ("moderate") (pyLowerStr ("Author")) = false ∧
    (mod_perm ("testapp") ("Author") =
        pyLowerStr ("testapp") ++ (".moderate_") ++ pyLowerStr ("Author") ∧
      change_perm ("testapp") ("Author") =
        pyLowerStr ("testapp") ++ (".change_") ++ pyLowerStr ("Author")) :=
  ⟨by decide, by decide,
    perm_names_verb_slot ("testapp") ("Author") (by decide) (by decide)⟩

/-! ### Claim C1: default-query visibility -/

/-- C1 counterexample: a PENDING instance does appear in the default
manager's query — the repository's tests require exactly this
(tests.py lines 144-146 count and fetch pending authors through
`Author.objects`), so the claim that the default manager returns only
APPROVED instances is false. -/
theorem default_manager_contains_pending_counterexample :
    (MonitoredInstance.mk PENDING_STATUS) ∈
      manager_get_query_set [MonitoredInstance.mk PENDING_STATUS] ∧
    (MonitoredInstance.mk PENDING_STATUS).is_pending = true ∧
    (MonitoredInstance.mk PENDING_STATUS).is_approved = false := by
  refine ⟨?_, ?_, ?_⟩ <;> decide

/-- C1 (amended): the default manager's query returns every instance
regardless of status; the approved-only visibility is provided by the
explicit `approved()` query instead: an instance belongs to it exactly
when it is in the table with status APPROVED, so a PENDING or CHALLENGED
instance never appears in it. -/
theorem default_manager_all_and_approved_query
    (table : List MonitoredInstance) (i : MonitoredInstance) :
    (i ∈ manager_get_query_set table ↔ i ∈ table) ∧
    (i ∈ qs_approved table ↔ i ∈ table ∧ i.status = APPROVED_STATUS) ∧
    ((i.status = PENDING_STATUS ∨ i.status = CHALLENGED_STATUS) →
      i ∉ qs_approved table) := by
  refine ⟨Iff.rfl, ?_, ?_⟩
  · simp [qs_approved, List.mem_filter]
  · intro hst hmem
    have happ := (List.mem_filter.mp hmem).2
    rcases hst with h | h <;> rw [h] at happ <;> exact absurd happ (by decide)

/-- C1 witness: the amended theorem applied to a one-row table holding a
pending instance (absent from the approved query) and to a table holding
an approved instance (present in it). -/
theorem default_manager_all_and_approved_query_witness :
    ((MonitoredInstance.mk PENDING_STATUS).status = PENDING_STATUS ∨
      (MonitoredInstance.mk PENDING_STATUS).status = CHALLENGED_STATUS) ∧
    (MonitoredInstance.mk PENDING_STATUS) ∉
      qs_approved [MonitoredInstance.mk PENDING_STATUS] ∧
    (MonitoredInstance.mk APPROVED_STATUS) ∈
      qs_approved [MonitoredInstance.mk APPROVED_STATUS] :=
  ⟨Or.inl rfl,
    (default_manager_all_and_approved_query
      [MonitoredInstance.mk PENDING_STATUS]
      (MonitoredInstance.mk PENDING_STATUS)).2.2 (Or.inl rfl),
    (default_manager_all_and_approved_query
      [MonitoredInstance.mk APPROVED_STATUS]
      (MonitoredInstance.mk APPROVED_STATUS)).2.1.mpr
      ⟨List.mem_singleton.mpr rfl, rfl⟩⟩

/-! ### Claim C2: cascade invariant -/

/-- C2: after any transition of an instance to a target status, the
instance has that status, its cascade parent (when present) has the same
status as the instance, and every ancestor along the whole cascade chain
has been set to the same target status. -/
theorem transition_cascades_to_parents (i : MInst) (t : String) :
    (transition i t).status = t ∧
    ((transition i t).parent?.all fun p => p.status == t) = true ∧
    ((transition i t).ancestors.all fun p => p.status == t) = true := by
  induction i with
  | leaf s => simp [transition, MInst.status, MInst.parent?, MInst.ancestors]
  | child s p ih =>
    refine ⟨rfl, ?_, ?_⟩
    · simp [transition, MInst.parent?, Option.all, ih.1]
    · simp [transition, MInst.ancestors, ih.1, ih.2.2]

/-! ### Claim C3: initial status on creation -/

/-- C3: a newly created instance of a registered type gets status PENDING
when the creating actor lacks the type's moderate permission, and status
APPROVED (auto-approval) when the actor holds it. -/
theorem status_on_create_spec (perms : List String)
    (app_label object_name : String) :
    (perms.contains (mod_perm app_label object_name) = false →
      status_on_create perms app_label object_name = PENDING_STATUS) ∧
    (perms.contains (mod_perm app_label object_name) = true →
      status_on_create perms app_label object_name = APPROVED_STATUS) := by
  constructor <;> intro h
  · have h' : mod_perm app_label object_name ∉ perms := by simpa using h
    simp [status_on_create, h']
  · have h' : mod_perm app_label object_name ∈ perms := by simpa using h
    simp [status_on_create, h']

/-- C3 witness: an actor with no permissions creates in PENDING; an actor
holding `testapp.moderate_author` creates in APPROVED. -/
theorem status_on_create_spec_witness :
    (([] : List String).contains (mod_perm ("testapp") ("Author")) = false ∧
      status_on_create [] ("testapp") ("Author") = PENDING_STATUS) ∧
    ([("testapp.moderate_author")].contains
        (mod_perm ("testapp") ("Author")) = true ∧
      status_on_create [("testapp.moderate_author")] ("testapp") ("Author") =
        APPROVED_STATUS) :=
  ⟨⟨by decide, (status_on_create_spec [] ("testapp") ("Author")).1
      (by decide)⟩,
    ⟨by decide, (status_on_create_spec [("testapp.moderate_author")]
      ("testapp") ("Author")).2 (by decide)⟩⟩

/-! ### Claim C4: delete-permission override -/

/-- C4: `has_delete_permission` returns false whenever the model is
registered with `can_delete_approved = false` and the given object is
approved, regardless of the ordinary delete-permission check; in every
other case (unregistered model, `can_delete_approved` true, object
absent, or object not approved) it returns exactly the ordinary check's
result. -/
theorem has_delete_permission_spec
    (registry : List (String × QueueConfig)) (model_name : String)
    (obj : Option MonitoredInstance)
    (ordinary : Option MonitoredInstance → Bool) :
    ((∃ cfg, model_from_queue registry model_name = some cfg ∧
        cfg.can_delete_approved = false) ∧
      (∃ o, obj = some o ∧ o.is_approved = true) →
      has_delete_permission registry model_name obj ordinary = false) ∧
    ((model_from_queue registry model_name = none ∨
      (∀ cfg, model_from_queue registry model_name = some cfg →
        cfg.can_delete_approved = true) ∨
      obj = none ∨ (∀ o, obj = some o → o.is_approved = false)) →
      has_delete_permission registry model_name obj ordinary =
        ordinary obj) := by
  constructor
  · rintro ⟨⟨cfg, hcfg, hcda⟩, ⟨o, hobj, happ⟩⟩
    subst hobj
    simp [has_delete_permission, hcfg, hcda, happ]
  · intro h
    rcases hmq : model_from_queue registry model_name with _ | cfg
    · cases obj <;> simp [has_delete_permission, hmq]
    · cases hobj : obj with
      | none => simp [has_delete_permission, hmq]
      | some o =>
        subst hobj
        rcases h with h | h | h | h
        · rw [hmq] at h; exact absurd h (by simp)
        · have := h cfg hmq
          simp [has_delete_permission, hmq, this]
        · exact absurd h (by simp)
        · have := h o rfl
          simp [has_delete_permission, hmq, this]

/-- C4 witness: a registered model with `can_delete_approved = false` and
an approved object is denied deletion even though the ordinary check
grants it. -/
theorem has_delete_permission_spec_witness :
    has_delete_permission [(("book"), { can_delete_approved := false })]
      ("book") (some { status := APPROVED_STATUS }) (fun _ => true) =
      false :=
  (has_delete_permission_spec
      [(("book"), { can_delete_approved := false })] ("book")
      (some { status := APPROVED_STATUS }) (fun _ => true)).1
    ⟨⟨{ can_delete_approved := false }, rfl, rfl⟩,
      ⟨{ status := APPROVED_STATUS }, rfl, rfl⟩⟩

/-! ### Claim C9: readonly fields after approval -/

/-- C9: `get_readonly_fields` returns the declared readonly fields
extended with the protected fields exactly when the model is monitored,
an object is given and its status is APPROVED; in every other case
(including the add form, `obj = none`) it returns exactly the declared
readonly fields. -/
theorem get_readonly_fields_spec
    (registry : List (String × QueueConfig)) (model_name : String)
    (ro prot : List String) (obj : Option MonitoredInstance) :
    ((is_monitored registry model_name = true ∧
        ∃ o, obj = some o ∧ o.status = APPROVED_STATUS) →
      get_readonly_fields registry model_name ro prot obj = ro ++ prot) ∧
    ((is_monitored registry model_name = false ∨ obj = none ∨
        (∀ o, obj = some o → o.status ≠ APPROVED_STATUS)) →
      get_readonly_fields registry model_name ro prot obj = ro) := by
  constructor
  · rintro ⟨hmon, ⟨o, hobj, happ⟩⟩
    subst hobj
    simp [get_readonly_fields, hmon, happ]
  · intro h
    cases hobj : obj with
    | none => simp [get_readonly_fields]
    | some o =>
      subst hobj
      rcases h with h | h | h
      · simp [get_readonly_fields, h]
      · exact absurd h (by simp)
      · have := h o rfl
        simp [get_readonly_fields, this]

/-- C9 witness: a monitored model with an approved object extends the
readonly fields by the protected fields; the add form does not. -/
theorem get_readonly_fields_spec_witness :
    get_readonly_fields [(("book"), { can_delete_approved := true })]
        ("book") [("isbn")] [("name")]
        (some { status := APPROVED_STATUS }) = [("isbn")] ++ [("name")] ∧
    get_readonly_fields [(("book"), { can_delete_approved := true })]
        ("book") [("isbn")] [("name")] none = [("isbn")] :=
  ⟨(get_readonly_fields_spec [(("book"), { can_delete_approved := true })]
      ("book") [("isbn")] [("name")]
      (some { status := APPROVED_STATUS })).1
      ⟨rfl, ⟨{ status := APPROVED_STATUS }, rfl, rfl⟩⟩,
    (get_readonly_fields_spec [(("book"), { can_delete_approved := true })]
      ("book") [("isbn")] [("name")] none).2 (Or.inr (Or.inl rfl))⟩

/-! ### Claim C10: constructor rewrites of list_filter and list_display -/

/-- C10: constructing a `MonitorAdmin` unconditionally prepends the
model's primary-key attribute name to the declared `list_filter` and
appends `get_status_display` as the last entry of the declared
`list_display`; the constructor takes no input describing whether the
model is monitored, so the rewrite happens whether or not it is. -/
theorem monitorAdmin_init_spec (opts : ModelOpts) (lf ld : List String) :
    (monitorAdmin_init opts lf ld).list_filter = opts.pk_attname :: lf ∧
    (monitorAdmin_init opts lf ld).list_display =
      ld ++ [("get_status_display")] ∧
    (monitorAdmin_init opts lf ld).list_display.getLast? =
      some ("get_status_display") := by
  refine ⟨rfl, rfl, ?_⟩
  simp [monitorAdmin_init]

/-! ### Claim C6: status-based narrowing of the changelist queryset -/

/-- C6: `MonitorAdmin.queryset` narrows the base queryset to exactly the
instances of the single status whose constant the `status` request
parameter carries (pending, challenged, approved); when the parameter is
absent or its value is unrecognized, the base queryset is returned
unchanged (and, the function being total, no error is raised). -/
theorem queryset_filters_by_status (GET : List (String × String))
    (qs : List MonitoredInstance) :
    (qd_get GET ("status") = some PENDING_STATUS →
      (queryset GET qs).2 = qs_pending qs) ∧
    (qd_get GET ("status") = some CHALLENGED_STATUS →
      (queryset GET qs).2 = qs_challenged qs) ∧
    (qd_get GET ("status") = some APPROVED_STATUS →
      (queryset GET qs).2 = qs_approved qs) ∧
    ((qd_get GET ("status") ≠ some PENDING_STATUS ∧
      qd_get GET ("status") ≠ some CHALLENGED_STATUS ∧
      qd_get GET ("status") ≠ some APPROVED_STATUS) →
      (queryset GET qs).2 = qs) := by
  refine ⟨?_, ?_, ?_, ?_⟩
  · intro h
    simp [queryset, h, truthy, PENDING_STATUS]
  · intro h
    simp [queryset, h, truthy, PENDING_STATUS, CHALLENGED_STATUS]
  · intro h
    simp [queryset, h, truthy, PENDING_STATUS, CHALLENGED_STATUS,
      APPROVED_STATUS]
  · rintro ⟨h1, h2, h3⟩
    cases hst : qd_get GET ("status") with
    | none => simp [queryset, hst, truthy]
    | some s =>
      rw [hst] at h1 h2 h3
      have hs1 : ¬ s = PENDING_STATUS := fun he => h1 (by rw [he])
      have hs2 : ¬ s = CHALLENGED_STATUS := fun he => h2 (by rw [he])
      have hs3 : ¬ s = APPROVED_STATUS := fun he => h3 (by rw [he])
      by_cases hs : s = ("")
      · simp [queryset, hst, truthy, hs]
      · simp [queryset, hst, truthy, hs, hs1, hs2, hs3]

/-- C6 witness: the theorem applied to a request carrying
`status = PENDING_STATUS` and to one carrying an unrecognized value. -/
theorem queryset_filters_by_status_witness :
    (qd_get [(("status"), PENDING_STATUS)] ("status") =
        some PENDING_STATUS ∧
      (queryset [(("status"), PENDING_STATUS)]
          [MonitoredInstance.mk PENDING_STATUS,
            MonitoredInstance.mk APPROVED_STATUS]).2 =
        qs_pending [MonitoredInstance.mk PENDING_STATUS,
          MonitoredInstance.mk APPROVED_STATUS]) ∧
    ((queryset [(("status"), ("bogus"))]
        [MonitoredInstance.mk PENDING_STATUS]).2 =
      [MonitoredInstance.mk PENDING_STATUS]) :=
  ⟨⟨by decide,
      (queryset_filters_by_status [(("status"), PENDING_STATUS)]
        [MonitoredInstance.mk PENDING_STATUS,
          MonitoredInstance.mk APPROVED_STATUS]).1 (by decide)⟩,
    (queryset_filters_by_status [(("status"), ("bogus"))]
      [MonitoredInstance.mk PENDING_STATUS]).2.2.2
      ⟨by decide, by decide, by decide⟩⟩

/-! ### Claim C7: removal of the status request parameter -/

/-- C7 counterexample: the claim says that whenever a `status` parameter
is present in the request's query parameters it is removed by
`MonitorAdmin.queryset`.  A `status` parameter present with the empty
value is falsy in Python (`if status:` fails), so the key survives: with
`GET = [("status", "")]` the key is still present afterwards. -/
theorem queryset_keeps_empty_status_counterexample :
    qd_get [(("status"), (""))] ("status") = some ("") ∧
    (queryset [(("status"), (""))] ([] : List MonitoredInstance)).1 =
      [(("status"), (""))] := by
  constructor
  · decide
  · decide

/-- C7 (amended): whenever a `status` parameter is present with a
NON-EMPTY value, after `MonitorAdmin.queryset` the `status` key is absent
from the request's parameters and every other query parameter is
unchanged (the result is the original list with exactly the
`status`-keyed pairs removed). -/
theorem queryset_removes_status_param (GET : List (String × String))
    (qs : List MonitoredInstance) (s : String)
    (hget : qd_get GET ("status") = some s) (hs : s ≠ ("")) :
    (queryset GET qs).1 =
      GET.filter (fun p => !(p.1 == ("status"))) ∧
    ((queryset GET qs).1.any (fun p => p.1 == ("status"))) = false := by
  have htr : truthy (qd_get GET ("status")) = true := by
    rw [hget]
    simp [truthy, hs]
  have h1 : (queryset GET qs).1 =
      GET.filter (fun p => !(p.1 == ("status"))) := by
    simp [queryset, htr, qd_del]
  refine ⟨h1, ?_⟩
  rw [h1]
  induction GET with
  | nil => rfl
  | cons p rest ih =>
    by_cases hp : p.1 == ("status") <;>
      simp [List.filter_cons, hp, List.any_cons, ih]

/-- C7 witness: the amended theorem applied to a request with a
recognized status value between two other parameters: the status pair is
removed and the others are kept in order. -/
theorem queryset_removes_status_param_witness :
    qd_get [(("page"), ("2")), (("status"), PENDING_STATUS),
        (("q"), ("x"))] ("status") = some PENDING_STATUS ∧
    PENDING_STATUS ≠ ("") ∧
    ((queryset [(("page"), ("2")), (("status"), PENDING_STATUS),
          (("q"), ("x"))] ([] : List MonitoredInstance)).1 =
        [(("page"), ("2")), (("status"), PENDING_STATUS),
          (("q"), ("x"))].filter (fun p => !(p.1 == ("status"))) ∧
      ((queryset [(("page"), ("2")), (("status"), PENDING_STATUS),
          (("q"), ("x"))] ([] : List MonitoredInstance)).1.any
        (fun p => p.1 == ("status"))) = false) :=
  ⟨by decide, by decide,
    queryset_removes_status_param
      [(("page"), ("2")), (("status"), PENDING_STATUS), (("q"), ("x"))]
      ([] : List MonitoredInstance) PENDING_STATUS (by decide) (by decide)⟩

/-! ### Claim C5: permission gating of the bulk actions -/

theorem hasKey_dict_update (d : List (String × ActionTuple))
    (k k' : String) (v : ActionTuple) :
    hasKey (dict_update d k v) k' = (hasKey d k' || (k == k')) := by
  rw [dict_update]
  by_cases h : d.any (fun p => p.1 == k)
  · rw [if_pos h]
    have hmap : ∀ l : List (String × ActionTuple),
        ((l.map fun p => if p.1 == k then (k, v) else p).any
          fun p => p.1 == k') = (l.any fun p => p.1 == k') := by
      intro l
      induction l with
      | nil => rfl
      | cons p rest ih =>
        rw [List.map_cons, List.any_cons, List.any_cons, ih]
        by_cases hp : (p.1 == k) = true
        · rw [if_pos hp]
          have hpk : p.1 = k := eq_of_beq hp
          rw [hpk]
        · rw [if_neg hp]
    rw [hasKey, hmap]
    by_cases hkk : k = k'
    · subst hkk
      have hk : hasKey d k = true := h
      simp [hasKey] at hk
      simp [hk]
    · have : (k == k') = false := by simp [hkk]
      simp [this, hasKey]
  · rw [if_neg h, hasKey, List.any_append]
    simp [hasKey, List.any_cons]

/-- C5: the actions dict returned by `MonitorAdmin.get_actions` contains
`approve_selected` and `challenge_selected` exactly when the actor holds
the type's moderate permission, and contains `reset_to_pending` exactly
when the actor holds the type's change permission — holding the moderate
permission is not required for `reset_to_pending`.  The hypotheses pin
down that the parent-class action dict does not already carry the three
monitor action names (true of Django's stock actions) and that the
computed change-permission string is the canonical `A.change_O` (true
whenever "moderate" occurs in neither name, by `perm_names_verb_slot`). -/
theorem get_actions_permission_gating
    (base : List (String × ActionTuple)) (has_perm : String → Bool)
    (app_label object_name : String)
    (h1 : hasKey base ("approve_selected") = false)
    (h2 : hasKey base ("challenge_selected") = false)
    (h3 : hasKey base ("reset_to_pending") = false)
    (hc : change_perm app_label object_name =
      pyLowerStr app_label ++ (".change_") ++ pyLowerStr object_name) :
    hasKey (get_actions base has_perm app_label object_name)
        ("approve_selected") =
      has_perm (mod_perm app_label object_name) ∧
    hasKey (get_actions base has_perm app_label object_name)
        ("challenge_selected") =
      has_perm (mod_perm app_label object_name) ∧
    hasKey (get_actions base has_perm app_label object_name)
        ("reset_to_pending") =
      has_perm (pyLowerStr app_label ++ (".change_") ++
        pyLowerStr object_name) := by
  rw [← hc]
  by_cases hm : has_perm (mod_perm app_label object_name) <;>
    by_cases hch : has_perm (change_perm app_label object_name) <;>
      simp [get_actions, hm, hch, hasKey_dict_update, h1, h2, h3]

/-- C5 witness: starting from Django's stock `delete_selected` action, an
actor holding only `testapp.change_author` gets `reset_to_pending` but
not `approve_selected`/`challenge_selected`. -/
theorem get_actions_permission_gating_witness :
    hasKey [(("delete_selected"),
        { func := ("delete_selected"), name := ("delete_selected"),
          short_description := ("delete selected") })]
      ("approve_selected") = false ∧
    hasKey [(("delete_selected"),
        { func := ("delete_selected"), name := ("delete_selected"),
          short_description := ("delete selected") })]
      ("challenge_selected") = false ∧
    hasKey [(("delete_selected"),
        { func := ("delete_selected"), name := ("delete_selected"),
          short_description := ("delete selected") })]
      ("reset_to_pending") = false ∧
    change_perm ("testapp") ("Author") =
      pyLowerStr ("testapp") ++ (".change_") ++ pyLowerStr ("Author") ∧
    (hasKey (get_actions [(("delete_selected"),
          { func := ("delete_selected"), name := ("delete_selected"),
            short_description := ("delete selected") })]
        (fun s => s == ("testapp.change_author")) ("testapp") ("Author"))
        ("approve_selected") =
      (fun s => s == ("testapp.change_author"))
        (mod_perm ("testapp") ("Author")) ∧
    hasKey (get_actions [(("delete_selected"),
          { func := ("delete_selected"), name := ("delete_selected"),
            short_description := ("delete selected") })]
        (fun s => s == ("testapp.change_author")) ("testapp") ("Author"))
        ("challenge_selected") =
      (fun s => s == ("testapp.change_author"))
        (mod_perm ("testapp") ("Author")) ∧
    hasKey (get_actions [(("delete_selected"),
          { func := ("delete_selected"), name := ("delete_selected"),
            short_description := ("delete selected") })]
        (fun s => s == ("testapp.change_author")) ("testapp") ("Author"))
        ("reset_to_pending") =
      (fun s => s == ("testapp.change_author"))
        (pyLowerStr ("testapp") ++ (".change_") ++
          pyLowerStr ("Author"))) :=
  ⟨by decide, by decide, by decide, by decide,
    get_actions_permission_gating
      [(("delete_selected"),
        { func := ("delete_selected"), name := ("delete_selected"),
          short_description := ("delete selected") })]
      (fun s => s == ("testapp.change_author")) ("testapp") ("Author")
      (by decide) (by decide) (by decide) (by decide)⟩

end Monitor
